import Mathlib

/-!
Verification development for the `ensight_clip` repository.

The repository clips a spatial sub-region out of a large unstructured mesh
and serializes the result in the EnSight Gold interchange format.  The
definitions below are a shallow embedding of the Python sources:

* `vtu_to_ensight_gold.py` — the binary/ASCII EnSight Gold writers,
* `ensight_clip.py` — the `EnSightClipper` strategy selection, the
  block-wise clipping loop with its memory floors, the AABB overlap test
  and the prefilter bounds enlargement,
* `clip_box.py` — the `should_tetrahedralize` decision.

Bytes are modelled as `List Nat` (each entry one byte value); float32
coordinate and field values are carried as their 32-bit big-endian bit
patterns, since none of the properties below depend on float arithmetic.
Rationals stand in for the Python floats wherever only ordering matters.
-/

set_option maxRecDepth 10000

namespace EnsightClip

/-! ## Byte-level primitives -/

/-- ASCII bytes of a string literal (all literals in the sources are ASCII). -/
def ascii (s : String) : List Nat :=
  s.toList.map Char.toNat

/-- Python `bytes.ljust(80)`: pad with spaces (0x20) on the right to 80 bytes. -/
def ljust80 (s : List Nat) : List Nat :=
  s ++ List.replicate (80 - s.length) 32

/-- Big-endian 4-byte encoding, as produced by `struct.pack` with a
big-endian int32 format (for values in `[0, 2^31)`) and by numpy big-endian
int32/float32 `tobytes` on the stored 32-bit patterns. -/
def packInt32be (n : Nat) : List Nat :=
  [n / 16777216 % 256, n / 65536 % 256, n / 256 % 256, n % 256]

theorem ljust80_length (s : List Nat) (h : s.length ≤ 80) :
    (ljust80 s).length = 80 := by
  simp [ljust80]
  omega

theorem packInt32be_length (n : Nat) : (packInt32be n).length = 4 := rfl

theorem flatMap_packInt32be_length (l : List Nat) :
    (l.flatMap packInt32be).length = 4 * l.length := by
  induction l with
  | nil => rfl
  | cons x xs ih =>
      simp [List.flatMap, packInt32be] at ih ⊢
      omega

/-! ## Grid data model

A `Grid` is the in-memory `vtkUnstructuredGrid` content the writers read:
a point array (each coordinate a float32 bit pattern) and a cell list.
Only the six VTK cell types named in the writers' `vtk_to_ensight` map
occur in the converter's element vocabulary. -/

/-- The VTK cell types the writers translate (`vtk_to_ensight` map). -/
inductive CellType where
  | tetra
  | hexa
  | wedge
  | pyramid
  | tri
  | quad
deriving DecidableEq

/-- One cell: its VTK type and its point-id list. -/
structure Cell where
  ctype : CellType
  nodes : List Nat
deriving DecidableEq

/-- An unstructured grid: points (x, y, z bit patterns) and cells. -/
structure Grid where
  points : List (Nat × Nat × Nat)
  cells : List Cell
deriving DecidableEq

/-- EnSight element keyword per VTK cell type (`vtk_to_ensight`). -/
def ensightName : CellType → String
  | .tetra => "tetra4"
  | .hexa => "hexa8"
  | .wedge => "penta6"
  | .pyramid => "pyramid5"
  | .tri => "tria3"
  | .quad => "quad4"

/-- Node count per element type (`vtk_to_ensight`). -/
def nodeCount : CellType → Nat
  | .tetra => 4
  | .hexa => 8
  | .wedge => 6
  | .pyramid => 5
  | .tri => 3
  | .quad => 4

/-- First-occurrence key order of `cell_type_counts` (a Python dict filled
while iterating the cells in index order). -/
def typesInOrder (cells : List Cell) : List CellType :=
  cells.foldl (fun acc c => if c.ctype ∈ acc then acc else acc ++ [c.ctype]) []

/-- The `cell_type_lists[t]` entry: cells of type `t` in cell-index order. -/
def cellsOfType (cells : List Cell) (t : CellType) : List Cell :=
  cells.filter (fun c => decide (c.ctype = t))

/-! ## `write_ensight_gold_geometry_binary` (vtu_to_ensight_gold.py) -/

/-- Connectivity bytes of one element section: the code first flattens the
1-based point ids of every cell of the type (reading `n_nodes` ids per
cell), then serializes the list as big-endian int32. -/
def connectivityBytes (cells : List Cell) (t : CellType) : List Nat :=
  ((cellsOfType cells t).flatMap
    (fun c => (c.nodes.take (nodeCount t)).map (fun id => id + 1))).flatMap packInt32be

/-- Byte stream of the binary geometry writer. -/
def write_ensight_gold_geometry_binary (g : Grid) : List Nat :=
  ljust80 (ascii "C Binary") ++
  ljust80 (ascii "Generated from VTU - Binary") ++
  ljust80 (ascii "node id assign") ++
  ljust80 (ascii "element id assign") ++
  ljust80 (ascii "part") ++
  packInt32be 1 ++
  ljust80 (ascii "Volume") ++
  ljust80 (ascii "coordinates") ++
  packInt32be g.points.length ++
  (g.points.map (fun p => p.1)).flatMap packInt32be ++
  (g.points.map (fun p => p.2.1)).flatMap packInt32be ++
  (g.points.map (fun p => p.2.2)).flatMap packInt32be ++
  (typesInOrder g.cells).flatMap (fun t =>
    ljust80 (ascii (ensightName t)) ++
    packInt32be (cellsOfType g.cells t).length ++
    connectivityBytes g.cells t)

/-! ## Spec-side description of the binary geometry layout

`geometrySpecBinary` is written from the specification's words (spec §6,
`N.geo`, Binary): four 80-byte space-padded header lines, a `part` line
with a big-endian int32 part index and a part-name line, a `coordinates`
line with a big-endian int32 point count and three non-interleaved planes
of big-endian float32, then per present cell shape a keyword line, a
big-endian int32 cell count and the flattened 1-based big-endian int32
connectivity of that shape's cells. -/

/-- The distinct cell shapes present, each at its first occurrence. -/
def dedupFirst : List CellType → List CellType
  | [] => []
  | t :: ts => t :: dedupFirst (ts.filter (fun u => decide (u ≠ t)))
termination_by l => l.length
decreasing_by
  simp only [List.length_cons]
  exact Nat.lt_succ_of_le (List.length_filter_le _ _)

/-- The shapes present in the grid, in order of first appearance. -/
def shapesPresent (g : Grid) : List CellType :=
  dedupFirst (g.cells.map Cell.ctype)

/-- Spec-side byte layout of the binary geometry file. -/
def geometrySpecBinary (g : Grid) : List Nat :=
  ljust80 (ascii "C Binary") ++
  ljust80 (ascii "Generated from VTU - Binary") ++
  ljust80 (ascii "node id assign") ++
  ljust80 (ascii "element id assign") ++
  ljust80 (ascii "part") ++
  packInt32be 1 ++
  ljust80 (ascii "Volume") ++
  ljust80 (ascii "coordinates") ++
  packInt32be g.points.length ++
  (g.points.map (fun p => p.1)).flatMap packInt32be ++
  (g.points.map (fun p => p.2.1)).flatMap packInt32be ++
  (g.points.map (fun p => p.2.2)).flatMap packInt32be ++
  (shapesPresent g).flatMap (fun t =>
    ljust80 (ascii (ensightName t)) ++
    packInt32be (cellsOfType g.cells t).length ++
    ((cellsOfType g.cells t).flatMap
      (fun c => c.nodes.map (fun id => id + 1))).flatMap packInt32be)

/-! ## Field writers (vtu_to_ensight_gold.py)

A `FieldArray` is one per-point VTK data array: its name, its component
count and its tuples (component values as float32 bit patterns). -/

/-- One per-point data array of the grid. -/
structure FieldArray where
  name : String
  ncomp : Nat
  tuples : List (List Nat)
deriving DecidableEq

/-- `write_ensight_gold_scalar_binary`: header lines, part index, then the
values as big-endian float32 (the found-array case; the writer only fails
when the name lookup fails). -/
def write_ensight_gold_scalar_binary (f : FieldArray) : List Nat :=
  ljust80 (ascii "C Binary") ++
  ljust80 (ascii "part") ++
  packInt32be 1 ++
  ljust80 (ascii "coordinates") ++
  (f.tuples.map (fun t => t.getD 0 0)).flatMap packInt32be

/-- `write_ensight_gold_vector_binary`: rejects any array whose component
count is not 3 (returns `none`, the Python `return False`), otherwise
header lines, part index, then the X plane, the Y plane and the Z plane as
big-endian float32. -/
def write_ensight_gold_vector_binary (f : FieldArray) : Option (List Nat) :=
  if f.ncomp ≠ 3 then none
  else some (
    ljust80 (ascii "C Binary") ++
    ljust80 (ascii "part") ++
    packInt32be 1 ++
    ljust80 (ascii "coordinates") ++
    (f.tuples.map (fun t => t.getD 0 0)).flatMap packInt32be ++
    (f.tuples.map (fun t => t.getD 1 0)).flatMap packInt32be ++
    (f.tuples.map (fun t => t.getD 2 0)).flatMap packInt32be)

/-! ## ASCII writers (vtu_to_ensight_gold.py)

The ASCII writers format float values with Python's `%12.5e`-style
formatting; that float-to-text rendering is external to the claims below
and is passed in as `fmt`.  Integers are right-aligned in a fixed width. -/

/-- Python `f"{n:>w}"`: right-align in a field of `w` characters. -/
def rjust (w : Nat) (s : String) : String :=
  String.mk (List.replicate (w - s.length) ' ') ++ s

/-- ASCII connectivity of one cell: ten 10-wide ids per line, a newline
after every tenth id and a closing newline when the node count is not a
multiple of ten. -/
def connAsciiCell (t : CellType) (c : Cell) : String :=
  String.join ((List.range (nodeCount t)).map (fun j =>
    rjust 10 (toString (c.nodes.getD j 0 + 1)) ++
      (if (j + 1) % 10 = 0 then "\n" else ""))) ++
  (if nodeCount t % 10 ≠ 0 then "\n" else "")

/-- `write_ensight_gold_geometry` (ASCII variant). -/
def write_ensight_gold_geometry (fmt : Nat → String) (g : Grid) : String :=
  "EnSight Gold Geometry File\n" ++
  "Generated from VTU by vtu_to_ensight_gold.py\n" ++
  "node id assign\n" ++
  "element id assign\n" ++
  "part\n" ++
  rjust 10 (toString 1) ++ "\n" ++
  "Volume\n" ++
  "coordinates\n" ++
  rjust 10 (toString g.points.length) ++ "\n" ++
  String.join (g.points.map (fun p => fmt p.1 ++ "\n")) ++
  String.join (g.points.map (fun p => fmt p.2.1 ++ "\n")) ++
  String.join (g.points.map (fun p => fmt p.2.2 ++ "\n")) ++
  String.join ((typesInOrder g.cells).map (fun t =>
    ensightName t ++ "\n" ++
    rjust 10 (toString (cellsOfType g.cells t).length) ++ "\n" ++
    String.join ((cellsOfType g.cells t).map (connAsciiCell t))))

/-- `write_ensight_gold_scalar` (ASCII variant, found-array case). -/
def write_ensight_gold_scalar (fmt : Nat → String) (f : FieldArray) : String :=
  "EnSight Gold Scalar Variable\n" ++
  "part\n" ++
  rjust 10 (toString 1) ++ "\n" ++
  "coordinates\n" ++
  String.join (f.tuples.map (fun t => fmt (t.getD 0 0) ++ "\n"))

/-- `write_ensight_gold_vector` (ASCII variant): rejects component counts
other than 3, otherwise writes X, Y and Z component blocks. -/
def write_ensight_gold_vector (fmt : Nat → String) (f : FieldArray) :
    Option String :=
  if f.ncomp ≠ 3 then none
  else some (
    "EnSight Gold Vector Variable\n" ++
    "part\n" ++
    rjust 10 (toString 1) ++ "\n" ++
    "coordinates\n" ++
    String.join (f.tuples.map (fun t => fmt (t.getD 0 0) ++ "\n")) ++
    String.join (f.tuples.map (fun t => fmt (t.getD 1 0) ++ "\n")) ++
    String.join (f.tuples.map (fun t => fmt (t.getD 2 0) ++ "\n")))

/-! ## Case manifest and conversion driver (vtu_to_ensight_gold.py) -/

/-- The kind of a per-point variable, as classified by the converter. -/
inductive VarKind where
  | scalar
  | vector
deriving DecidableEq

/-- Lines of the `.case` manifest (`write_ensight_gold_case`). -/
def write_ensight_gold_case (geo : String)
    (vars : List (VarKind × String × String)) : List String :=
  ["FORMAT", "type: ensight gold", "", "GEOMETRY", "model: " ++ geo, "",
   "VARIABLE"] ++
  vars.map (fun v =>
    match v.1 with
    | .scalar => "scalar per node: " ++ v.2.1 ++ " " ++ v.2.2
    | .vector => "vector per node: " ++ v.2.1 ++ " " ++ v.2.2) ++
  [""]

/-- The `variables` list built in `convert_vtu_to_ensight_gold`: a field
enters it as a scalar when it has one component, as a vector when it has
three, and is dropped otherwise. -/
def collectVariables (arrays : List FieldArray) : List (VarKind × String) :=
  arrays.filterMap (fun a =>
    if a.ncomp = 1 then some (VarKind.scalar, a.name)
    else if a.ncomp = 3 then some (VarKind.vector, a.name)
    else none)

/-- Success of one binary field write in the conversion loop: the writer
looks the array up by name again; a scalar write succeeds when the lookup
does, a vector write additionally requires three components. -/
def writeSucceeds (arrays : List FieldArray) (v : VarKind × String) : Bool :=
  match arrays.find? (fun a => decide (a.name = v.2)) with
  | none => false
  | some a =>
    match v.1 with
    | .scalar => true
    | .vector => decide (a.ncomp = 3)

/-- The `written_vars` accumulated by the binary conversion loop. -/
def writtenVars (arrays : List FieldArray) : List (VarKind × String) :=
  (collectVariables arrays).filter (writeSucceeds arrays)

/-- The `.case` manifest the conversion finally writes for prefix `pre`:
each written variable's file is `pre_name`. -/
def convertCaseLines (pre : String) (arrays : List FieldArray) :
    List String :=
  write_ensight_gold_case (pre ++ ".geo")
    ((writtenVars arrays).map (fun v => (v.1, v.2, pre ++ "_" ++ v.2)))

/-! ## EnSightClipper (ensight_clip.py)

Bounds are the VTK 6-tuples `[xmin, xmax, ymin, ymax, zmin, zmax]`,
modelled as a list of six rationals.  A `Block` carries the observables
the clipper reads from a `vtkMultiBlockDataSet` entry: its cell count and
its bounds.  The geometric work done by VTK's `vtkTableBasedClipDataSet`
is external; the block loop is parametrized over `clipCells`, the number
of cells the clip of a given block keeps, and over the two memory
readings taken before a block (before and after the forced garbage
collection). -/

/-- Observables of one non-null block of the multiblock dataset. -/
structure Block where
  cells : Nat
  bounds : List ℚ
deriving DecidableEq

/-- `EnSightClipper._bounds_intersect`: no overlap when one box lies
entirely to one side of the other on some axis. -/
def boundsIntersect (bounds1 bounds2 : List ℚ) : Bool :=
  if bounds1.getD 1 0 < bounds2.getD 0 0 ∨
     bounds1.getD 0 0 > bounds2.getD 1 0 ∨
     bounds1.getD 3 0 < bounds2.getD 2 0 ∨
     bounds1.getD 2 0 > bounds2.getD 3 0 ∨
     bounds1.getD 5 0 < bounds2.getD 4 0 ∨
     bounds1.getD 4 0 > bounds2.getD 5 0 then false
  else true

/-- Spec-side separating-axis disjointness on axis-aligned closed
intervals: the boxes are disjoint exactly when on at least one axis one
box's maximum lies below the other box's minimum. -/
def boxesDisjoint (b1 b2 : List ℚ) : Prop :=
  ∃ k, k < 3 ∧
    (b1.getD (2 * k + 1) 0 < b2.getD (2 * k) 0 ∨
     b2.getD (2 * k + 1) 0 < b1.getD (2 * k) 0)

/-- Outcome of the block-wise clipping loop: the pieces handed to the
append filter (block index and kept cell count), the two counters the
loop maintains, and the index at which the hard memory floor broke the
loop, if it did. -/
structure BlockLoopResult where
  pieces : List (Nat × Nat)
  blocksClipped : Nat
  blocksSkipped : Nat
  stoppedAt : Option Nat
deriving DecidableEq

/-- The loop body of `_clip_blocks_individually`: null or empty blocks
are passed over; a block whose bounds do not intersect the box is counted
skipped; otherwise, when available memory is under 1 GiB and is still
under 512 MiB after the forced garbage collection, the loop breaks;
otherwise the block is clipped and appended when the clip keeps cells. -/
def clipLoop (clipCells : Nat → Block → Nat) (memAvail memAfterGc : Nat → Nat)
    (bounds : List ℚ) :
    List (Option Block) → Nat → List (Nat × Nat) → Nat → Nat →
    BlockLoopResult
  | [], _, acc, nClipped, nSkipped =>
      ⟨acc, nClipped, nSkipped, none⟩
  | ob :: rest, i, acc, nClipped, nSkipped =>
      match ob with
      | none => clipLoop clipCells memAvail memAfterGc bounds rest (i + 1)
          acc nClipped nSkipped
      | some b =>
        if b.cells = 0 then
          clipLoop clipCells memAvail memAfterGc bounds rest (i + 1)
            acc nClipped nSkipped
        else if boundsIntersect b.bounds bounds = false then
          clipLoop clipCells memAvail memAfterGc bounds rest (i + 1)
            acc nClipped (nSkipped + 1)
        else if memAvail i < 1073741824 ∧ memAfterGc i < 536870912 then
          ⟨acc, nClipped, nSkipped, some i⟩
        else
          let kept := clipCells i b
          if kept > 0 then
            clipLoop clipCells memAvail memAfterGc bounds rest (i + 1)
              (acc ++ [(i, kept)]) (nClipped + 1) nSkipped
          else
            clipLoop clipCells memAvail memAfterGc bounds rest (i + 1)
              acc nClipped nSkipped

/-- `EnSightClipper._clip_blocks_individually`. -/
def clip_blocks_individually (clipCells : Nat → Block → Nat)
    (memAvail memAfterGc : Nat → Nat) (blocks : List (Option Block))
    (bounds : List ℚ) : BlockLoopResult :=
  clipLoop clipCells memAvail memAfterGc bounds blocks 0 [] 0 0

/-- The reader output as the strategy selection sees it: either a dataset
without blocks, or a multiblock dataset (entries may be null). -/
inductive MeshOutput where
  | plain (cells : Nat)
  | multi (blocks : List (Option Block))
deriving DecidableEq

/-- `sum(...)` over the non-null blocks in `clip_with_box`. -/
def totalCellsOfBlocks (blocks : List (Option Block)) : Nat :=
  ((blocks.filterMap id).map Block.cells).sum

/-- The two clipping strategies of `clip_with_box`. -/
inductive Strategy where
  | monolithic
  | blockwise
deriving DecidableEq

/-- Strategy selection in `clip_with_box`: block-wise exactly when the
output is a multiblock dataset with at least one block whose total cell
count exceeds 10,000,000; everything else is clipped monolithically. -/
def chooseStrategy : MeshOutput → Strategy
  | .plain _ => .monolithic
  | .multi blocks =>
      if 0 < blocks.length ∧ 10000000 < totalCellsOfBlocks blocks then
        .blockwise
      else
        .monolithic

/-- `EnSightClipper._prefilter_region` bounds enlargement: starting from a
copy of the bounds list, each of the three axis loops subtracts half the
axis extent from the low entry and adds half the axis extent to the high
entry. -/
def prefilterExtendedBounds (bounds : List ℚ) : List ℚ :=
  [0, 2, 4].foldl (fun ext i =>
    let size := bounds.getD (i + 1) 0 - bounds.getD i 0
    let ext2 := ext.set i (ext.getD i 0 - size * (1 / 2))
    ext2.set (i + 1) (ext2.getD (i + 1) 0 + size * (1 / 2))) bounds

/-- The monolithic path of `clip_with_box` after the merge step: when
prefiltering is on and the merged mesh holds more than 100,000 cells, the
candidate geometry is first extracted with the enlarged box, then the
exact box clip runs on that candidate set.  Extraction and exact clip are
the external VTK filters `extractFn` and `clipFn`. -/
def monolithicClip {K : Type} (extractFn : K → List ℚ → K)
    (clipFn : K → List ℚ → K) (cellsOf : K → Nat) (usePrefilter : Bool)
    (merged : K) (bounds : List ℚ) : K :=
  let working :=
    if usePrefilter ∧ 100000 < cellsOf merged then
      extractFn merged (prefilterExtendedBounds bounds)
    else
      merged
  clipFn working bounds

/-! ## `should_tetrahedralize` (clip_box.py) -/

/-- Tetrahedralization decision: the admissible box volume grows with the
available RAM tier. -/
def should_tetrahedralize (box_volume available_ram_gb : ℚ) : Bool :=
  if available_ram_gb ≥ 40 then decide (box_volume ≤ 5000)
  else if available_ram_gb ≥ 20 then decide (box_volume ≤ 2000)
  else decide (box_volume ≤ 500)

/-! ## Helper lemmas -/

theorem boundsIntersect_eq_false_iff (b1 b2 : List ℚ) :
    boundsIntersect b1 b2 = false ↔ boxesDisjoint b1 b2 := by
  unfold boundsIntersect boxesDisjoint
  split_ifs with h
  · constructor
    · intro _
      rcases h with h | h | h | h | h | h
      · exact ⟨0, by omega, Or.inl h⟩
      · exact ⟨0, by omega, Or.inr h⟩
      · exact ⟨1, by omega, Or.inl h⟩
      · exact ⟨1, by omega, Or.inr h⟩
      · exact ⟨2, by omega, Or.inl h⟩
      · exact ⟨2, by omega, Or.inr h⟩
    · intro _
      rfl
  · constructor
    · intro hc
      exact absurd hc (by simp)
    · rintro ⟨k, hk, hc⟩
      exfalso
      apply h
      interval_cases k
      · rcases hc with hc | hc
        · exact Or.inl hc
        · exact Or.inr (Or.inl hc)
      · rcases hc with hc | hc
        · exact Or.inr (Or.inr (Or.inl hc))
        · exact Or.inr (Or.inr (Or.inr (Or.inl hc)))
      · rcases hc with hc | hc
        · exact Or.inr (Or.inr (Or.inr (Or.inr (Or.inl hc))))
        · exact Or.inr (Or.inr (Or.inr (Or.inr (Or.inr hc))))

theorem flatMapCongr {α β : Type} {l : List α} {f g : α → List β}
    (h : ∀ a ∈ l, f a = g a) : l.flatMap f = l.flatMap g := by
  induction l with
  | nil => rfl
  | cons x xs ih =>
      rw [List.flatMap_cons, List.flatMap_cons,
        h x (List.mem_cons_self x xs),
        ih (fun a ha => h a (List.mem_cons_of_mem x ha))]

theorem foldlInsertEq (l : List Cell) :
    ∀ acc : List CellType,
      l.foldl (fun a c => if c.ctype ∈ a then a else a ++ [c.ctype]) acc =
        acc ++ dedupFirst ((l.map Cell.ctype).filter
          (fun t => decide (t ∉ acc))) := by
  induction l with
  | nil =>
      intro acc
      simp [dedupFirst]
  | cons c ts ih =>
      intro acc
      rw [List.foldl_cons, List.map_cons]
      by_cases h : c.ctype ∈ acc
      · rw [if_pos h, List.filter_cons_of_neg (by simpa using h), ih acc]
      · rw [if_neg h, List.filter_cons_of_pos (by simpa using h),
          ih (acc ++ [c.ctype]), dedupFirst]
        have hf : (ts.map Cell.ctype).filter
            (fun t => decide (t ∉ acc ++ [c.ctype])) =
            ((ts.map Cell.ctype).filter (fun t => decide (t ∉ acc))).filter
              (fun t => decide (t ≠ c.ctype)) := by
          rw [List.filter_filter]
          apply List.filter_congr
          intro u _
          by_cases h1 : u = c.ctype <;> by_cases h2 : u ∈ acc <;>
            simp [h1, h2]
        rw [hf, List.append_assoc, List.singleton_append]

theorem typesInOrder_eq (cells : List Cell) :
    typesInOrder cells = dedupFirst (cells.map Cell.ctype) := by
  unfold typesInOrder
  rw [foldlInsertEq cells []]
  have : ((cells.map Cell.ctype).filter
      (fun t => decide (t ∉ ([] : List CellType)))) = cells.map Cell.ctype := by
    apply List.filter_eq_self.mpr
    intro t _
    simp
  rw [this, List.nil_append]

theorem connectivityBytes_eq (cells : List Cell) (t : CellType)
    (hwf : ∀ c ∈ cells, c.nodes.length = nodeCount c.ctype) :
    connectivityBytes cells t =
      ((cellsOfType cells t).flatMap
        (fun c => c.nodes.map (fun id => id + 1))).flatMap packInt32be := by
  unfold connectivityBytes
  congr 1
  apply flatMapCongr
  intro c hc
  have hmem : c ∈ cells := List.mem_of_mem_filter hc
  have hct : c.ctype = t := by
    have := List.of_mem_filter hc
    simpa using this
  rw [← hct, ← hwf c hmem, List.take_length]

/-! ## Claims -/

/-- C9: `should_tetrahedralize` is monotone in both arguments — for a
fixed available RAM it stays true as the box volume shrinks, and for a
fixed box volume it stays true as the available RAM grows. -/
theorem c9_should_tetrahedralize_monotone :
    (∀ r v v2 : ℚ, v2 ≤ v → should_tetrahedralize v r = true →
      should_tetrahedralize v2 r = true) ∧
    (∀ v r r2 : ℚ, r ≤ r2 → should_tetrahedralize v r = true →
      should_tetrahedralize v r2 = true) := by
  constructor
  · intro r v v2 hle h
    unfold should_tetrahedralize at h ⊢
    split_ifs at h ⊢ <;> simp_all <;> linarith
  · intro v r r2 hle h
    unfold should_tetrahedralize at h ⊢
    split_ifs at h ⊢ <;> simp_all <;> linarith

/-- C9 witness: a concrete instantiation of both monotonicity parts. -/
theorem c9_witness :
    (300 : ℚ) ≤ 400 ∧ (10 : ℚ) ≤ 50 ∧
    should_tetrahedralize 400 10 = true ∧
    should_tetrahedralize 300 10 = true ∧
    should_tetrahedralize 300 50 = true :=
  ⟨by norm_num, by norm_num, by decide,
   c9_should_tetrahedralize_monotone.1 10 400 300 (by norm_num) (by decide),
   c9_should_tetrahedralize_monotone.2 300 10 50 (by norm_num)
     (c9_should_tetrahedralize_monotone.1 10 400 300 (by norm_num)
       (by decide))⟩

/-- C4: in the block-wise path a (non-null, non-empty) block is skipped
as disjoint — counted in the skip counter, with no clipping work — exactly
when the separating-axis test finds the block's bounds and the clip box
disjoint: `_bounds_intersect` returns false iff on at least one axis one
box's maximum lies below the other box's minimum. -/
theorem c4_skip_iff_separating_axis :
    (∀ b1 b2 : List ℚ, boundsIntersect b1 b2 = false ↔ boxesDisjoint b1 b2) ∧
    (∀ (clipCells : Nat → Block → Nat) (memAvail memAfterGc : Nat → Nat)
        (box : List ℚ) (b : Block) (rest : List (Option Block))
        (i : Nat) (acc : List (Nat × Nat)) (nc ns : Nat),
      b.cells ≠ 0 → boxesDisjoint b.bounds box →
      clipLoop clipCells memAvail memAfterGc box (some b :: rest) i acc nc ns =
        clipLoop clipCells memAvail memAfterGc box rest (i + 1) acc nc
          (ns + 1)) := by
  constructor
  · exact boundsIntersect_eq_false_iff
  · intro clipCells memAvail memAfterGc box b rest i acc nc ns hc hd
    show (if b.cells = 0 then _ else _) = _
    rw [if_neg hc, if_pos ((boundsIntersect_eq_false_iff b.bounds box).mpr hd)]

/-- C4 witness: a concrete disjoint block is skipped with the counter
incremented. -/
theorem c4_witness :
    boundsIntersect [(0 : ℚ), 1, 0, 1, 0, 1] [2, 3, 2, 3, 2, 3] = false ∧
    clipLoop (fun _ _ => 1) (fun _ => 0) (fun _ => 0) [2, 3, 2, 3, 2, 3]
        [some ⟨3, [0, 1, 0, 1, 0, 1]⟩] 0 [] 0 0 =
      clipLoop (fun _ _ => 1) (fun _ => 0) (fun _ => 0) [2, 3, 2, 3, 2, 3]
        [] 1 [] 0 1 :=
  ⟨(c4_skip_iff_separating_axis.1 _ _).mpr ⟨0, by omega, Or.inl (by decide)⟩,
   c4_skip_iff_separating_axis.2 _ _ _ _ ⟨3, [0, 1, 0, 1, 0, 1]⟩ [] 0 [] 0 0
     (by decide) ⟨0, by omega, Or.inl (by decide)⟩⟩

/-- C2 counterexample: a multiblock mesh of two blocks with a small total
cell count is clipped on the monolithic path, although it is not a single
block — refuting that the monolithic path requires a single-block mesh. -/
theorem c2_counterexample :
    chooseStrategy (MeshOutput.multi
        [some ⟨5, [0, 1, 0, 1, 0, 1]⟩, some ⟨5, [0, 1, 0, 1, 0, 1]⟩]) =
      Strategy.monolithic ∧
    ([some (⟨5, [0, 1, 0, 1, 0, 1]⟩ : Block),
      some ⟨5, [0, 1, 0, 1, 0, 1]⟩] : List (Option Block)).length = 2 ∧
    totalCellsOfBlocks
        [some ⟨5, [0, 1, 0, 1, 0, 1]⟩, some ⟨5, [0, 1, 0, 1, 0, 1]⟩] = 10 := by
  refine ⟨by decide, by decide, by decide⟩

/-- C2 amended: the block-wise path is chosen exactly when the reader
output is a multiblock dataset with at least one block and the total cell
count over its non-null blocks exceeds the hard-coded 10,000,000; every
other mesh — including multi-block meshes at or below the threshold and
any non-multiblock dataset — is clipped on the monolithic path. -/
theorem c2_strategy_selection :
    ∀ m : MeshOutput, chooseStrategy m = Strategy.blockwise ↔
      ∃ blocks, m = MeshOutput.multi blocks ∧ 0 < blocks.length ∧
        10000000 < totalCellsOfBlocks blocks := by
  intro m
  cases m with
  | plain c =>
      simp [chooseStrategy]
  | multi blocks =>
      show (if 0 < blocks.length ∧ 10000000 < totalCellsOfBlocks blocks
          then Strategy.blockwise else Strategy.monolithic) =
        Strategy.blockwise ↔ _
      by_cases h : 0 < blocks.length ∧ 10000000 < totalCellsOfBlocks blocks
      · rw [if_pos h]
        exact ⟨fun _ => ⟨blocks, rfl, h⟩, fun _ => rfl⟩
      · rw [if_neg h]
        constructor
        · intro hc
          cases hc
        · rintro ⟨bs, hbs, h1, h2⟩
          cases hbs
          exact absurd ⟨h1, h2⟩ h

/-- C3 counterexample: three overlapping blocks of five cells each; the
first is clipped, then the memory readings before block 1 fall below both
floors.  The loop stops at block 1 without processing blocks 1 and 2, and
the returned result holds only the first block's piece with the skip
counter at 0 — nothing in the returned data marks blocks 1 and 2 as
skipped-memory, refuting the claimed provenance marking. -/
theorem c3_counterexample :
    clip_blocks_individually (fun _ _ => 5)
        (fun i => if i = 0 then 2147483648 else 0) (fun _ => 0)
        [some ⟨5, [0, 1, 0, 1, 0, 1]⟩, some ⟨5, [0, 1, 0, 1, 0, 1]⟩,
         some ⟨5, [0, 1, 0, 1, 0, 1]⟩]
        [0, 1, 0, 1, 0, 1] =
      ⟨[(0, 5)], 1, 0, some 1⟩ ∧
    (clip_blocks_individually (fun _ _ => 5)
        (fun i => if i = 0 then 2147483648 else 0) (fun _ => 0)
        [some ⟨5, [0, 1, 0, 1, 0, 1]⟩, some ⟨5, [0, 1, 0, 1, 0, 1]⟩,
         some ⟨5, [0, 1, 0, 1, 0, 1]⟩]
        [0, 1, 0, 1, 0, 1]).blocksSkipped = 0 := by
  refine ⟨by decide, by decide⟩

/-- C3 amended: when the block-wise loop reaches a non-empty,
non-disjoint block whose available-memory reading is below the 1 GiB soft
floor and whose post-release reading is still below the 512 MiB hard
floor, it stops at once: the block and everything after it stay
unprocessed, and the loop returns the partial result accumulated so far
(pieces and counters unchanged, the stop index recorded) instead of
crashing; the unprocessed blocks are not marked in the returned result. -/
theorem c3_memory_floor_stops_loop :
    ∀ (clipCells : Nat → Block → Nat) (memAvail memAfterGc : Nat → Nat)
      (box : List ℚ) (b : Block) (rest : List (Option Block))
      (i : Nat) (acc : List (Nat × Nat)) (nc ns : Nat),
      b.cells ≠ 0 → boundsIntersect b.bounds box = true →
      memAvail i < 1073741824 → memAfterGc i < 536870912 →
      clipLoop clipCells memAvail memAfterGc box (some b :: rest) i acc nc
          ns =
        ⟨acc, nc, ns, some i⟩ := by
  intro clipCells memAvail memAfterGc box b rest i acc nc ns hc hi h1 h2
  show (if b.cells = 0 then _ else _) = _
  rw [if_neg hc, if_neg (by simp [hi]), if_pos ⟨h1, h2⟩]

/-- C3 witness: the amended stop behaviour at a concrete block. -/
theorem c3_witness :
    clipLoop (fun _ _ => 5) (fun _ => 0) (fun _ => 0) [0, 1, 0, 1, 0, 1]
        [some ⟨5, [0, 1, 0, 1, 0, 1]⟩] 0 [] 0 0 =
      ⟨[], 0, 0, some 0⟩ :=
  c3_memory_floor_stops_loop (fun _ _ => 5) (fun _ => 0) (fun _ => 0)
    [0, 1, 0, 1, 0, 1] ⟨5, [0, 1, 0, 1, 0, 1]⟩ [] 0 [] 0 0
    (by decide) (by decide) (by decide) (by decide)

/-- C5: the binary geometry serialization is a deterministic function of
the grid content — two grids with the same points and the same cells
serialize to byte-identical output, so writing the same mesh twice
produces byte-identical files. -/
theorem c5_binary_geometry_deterministic :
    ∀ g1 g2 : Grid, g1.points = g2.points → g1.cells = g2.cells →
      write_ensight_gold_geometry_binary g1 =
        write_ensight_gold_geometry_binary g2 := by
  intro g1 g2 hp hc
  cases g1
  cases g2
  simp only at hp hc
  subst hp
  subst hc
  rfl

/-- C5 witness: determinism at a concrete grid. -/
theorem c5_witness :
    write_ensight_gold_geometry_binary
        ⟨[(1, 2, 3)], [⟨CellType.tetra, [0, 0, 0, 0]⟩]⟩ =
      write_ensight_gold_geometry_binary
        ⟨[(1, 2, 3)], [⟨CellType.tetra, [0, 0, 0, 0]⟩]⟩ :=
  c5_binary_geometry_deterministic
    ⟨[(1, 2, 3)], [⟨CellType.tetra, [0, 0, 0, 0]⟩]⟩
    ⟨[(1, 2, 3)], [⟨CellType.tetra, [0, 0, 0, 0]⟩]⟩ rfl rfl

/-- C1: for every grid whose cells carry the node count of their type,
the binary geometry writer emits exactly the byte sequence the
specification describes: four 80-byte space-padded header lines, the
`part` line with big-endian int32 part index and part-name line, the
`coordinates` line with big-endian int32 point count and the three
non-interleaved big-endian float32 planes (all X, then all Y, then all
Z), then per present cell shape a keyword line, a big-endian int32 cell
count and the flattened 1-based big-endian int32 connectivity of that
shape's cells. -/
theorem c1_binary_geometry_layout (g : Grid)
    (hwf : ∀ c ∈ g.cells, c.nodes.length = nodeCount c.ctype) :
    write_ensight_gold_geometry_binary g = geometrySpecBinary g := by
  unfold write_ensight_gold_geometry_binary geometrySpecBinary shapesPresent
  rw [typesInOrder_eq, List.append_right_inj]
  apply flatMapCongr
  intro t _
  rw [connectivityBytes_eq g.cells t hwf]

/-- C1 witness: the layout theorem at a concrete two-cell grid. -/
theorem c1_witness :
    (∀ c ∈ ([⟨CellType.tetra, [0, 1, 0, 1]⟩, ⟨CellType.tri, [1, 0, 1]⟩] :
        List Cell), c.nodes.length = nodeCount c.ctype) ∧
    write_ensight_gold_geometry_binary
        ⟨[(1, 2, 3), (4, 5, 6)],
         [⟨CellType.tetra, [0, 1, 0, 1]⟩, ⟨CellType.tri, [1, 0, 1]⟩]⟩ =
      geometrySpecBinary
        ⟨[(1, 2, 3), (4, 5, 6)],
         [⟨CellType.tetra, [0, 1, 0, 1]⟩, ⟨CellType.tri, [1, 0, 1]⟩]⟩ :=
  ⟨by decide,
   c1_binary_geometry_layout
     ⟨[(1, 2, 3), (4, 5, 6)],
      [⟨CellType.tetra, [0, 1, 0, 1]⟩, ⟨CellType.tri, [1, 0, 1]⟩]⟩
     (by decide)⟩

/-- C7: a 3-component binary field file is the 244 fixed header bytes
(three 80-byte lines and the 4-byte part index) followed by exactly
`3 × n × 4` bytes of data — the three big-endian float32 component
planes; at 1,000 points that is `3 × 1000 × 4` data bytes. -/
theorem c7_vector_binary_size (f : FieldArray) (h3 : f.ncomp = 3)
    (hn : f.tuples.length = 1000) :
    ∃ bytes, write_ensight_gold_vector_binary f = some bytes ∧
      bytes.length = 244 + 3 * 1000 * 4 := by
  unfold write_ensight_gold_vector_binary
  rw [if_neg (by simp [h3])]
  refine ⟨_, rfl, ?_⟩
  simp only [List.length_append, flatMap_packInt32be_length,
    List.length_map, hn]
  decide

/-- C7 witness: the size law at a concrete 1,000-point vector field. -/
theorem c7_witness :
    (⟨"velocity", 3, List.replicate 1000 [0, 0, 0]⟩ : FieldArray).ncomp = 3 ∧
    (⟨"velocity", 3, List.replicate 1000 [0, 0, 0]⟩ :
        FieldArray).tuples.length = 1000 ∧
    ∃ bytes, write_ensight_gold_vector_binary
        ⟨"velocity", 3, List.replicate 1000 [0, 0, 0]⟩ = some bytes ∧
      bytes.length = 244 + 3 * 1000 * 4 :=
  ⟨rfl, by simp,
   c7_vector_binary_size ⟨"velocity", 3, List.replicate 1000 [0, 0, 0]⟩
     rfl (by simp)⟩

/-- Spec-side enlarged clip box: each axis interval `[lo, hi]` is
extended on both its low and high side by a margin fraction of 0.5 of
that axis's clip extent. -/
def specEnlargedBounds (a b c d e f : ℚ) : List ℚ :=
  [a - 0.5 * (b - a), b + 0.5 * (b - a),
   c - 0.5 * (d - c), d + 0.5 * (d - c),
   e - 0.5 * (f - e), f + 0.5 * (f - e)]

theorem prefilterExtendedBounds_eq (a b c d e f : ℚ) :
    prefilterExtendedBounds [a, b, c, d, e, f] =
      [a - (b - a) * (1 / 2), b + (b - a) * (1 / 2),
       c - (d - c) * (1 / 2), d + (d - c) * (1 / 2),
       e - (f - e) * (1 / 2), f + (f - e) * (1 / 2)] := rfl

/-- C8: on the monolithic path with prefiltering applied (more than
100,000 merged cells), the candidate geometry is first extracted with the
enlarged box — every axis interval extended on both sides by 0.5 of that
axis's clip extent — and the exact clip then runs on that reduced
candidate set with the original bounds. -/
theorem c8_prefilter_enlarged_box :
    ∀ (K : Type) (extractFn clipFn : K → List ℚ → K) (cellsOf : K → Nat)
      (merged : K) (a b c d e f : ℚ),
      100000 < cellsOf merged →
      monolithicClip extractFn clipFn cellsOf true merged
          [a, b, c, d, e, f] =
        clipFn (extractFn merged (specEnlargedBounds a b c d e f))
          [a, b, c, d, e, f] := by
  intro K extractFn clipFn cellsOf merged a b c d e f h
  unfold monolithicClip
  rw [if_pos ⟨rfl, h⟩]
  have hb : prefilterExtendedBounds [a, b, c, d, e, f] =
      specEnlargedBounds a b c d e f := by
    rw [prefilterExtendedBounds_eq]
    unfold specEnlargedBounds
    simp only [List.cons.injEq, and_true]
    refine ⟨by ring, by ring, by ring, by ring, by ring, by ring⟩
  rw [hb]

/-- C8 witness: the prefilter sequencing at a concrete pipeline. -/
theorem c8_witness :
    monolithicClip (fun (n : Nat) _ => n + 1) (fun n _ => n * 2)
        (fun n => n) true 100001 [0, 1, 0, 1, 0, 1] =
      (fun n _ => n * 2) ((fun (n : Nat) _ => n + 1) 100001
        (specEnlargedBounds 0 1 0 1 0 1)) [0, 1, 0, 1, 0, 1] ∧
    monolithicClip (fun (n : Nat) _ => n + 1) (fun n _ => n * 2)
        (fun n => n) true 100001 [0, 1, 0, 1, 0, 1] = 200004 :=
  ⟨c8_prefilter_enlarged_box Nat (fun n _ => n + 1) (fun n _ => n * 2)
     (fun n => n) 100001 0 1 0 1 0 1 (by decide), rfl⟩

theorem find_name_eq :
    ∀ (arrays : List FieldArray), (arrays.map FieldArray.name).Nodup →
      ∀ a ∈ arrays,
        arrays.find? (fun x => decide (x.name = a.name)) = some a := by
  intro arrays
  induction arrays with
  | nil =>
      intro _ a ha
      cases ha
  | cons b rest ih =>
      intro hnd a ha
      rw [List.map_cons, List.nodup_cons] at hnd
      rcases List.mem_cons.mp ha with h | h
      · subst h
        rw [List.find?_cons_of_pos _ (by simp)]
      · have hne : b.name ≠ a.name := by
          intro he
          apply hnd.1
          rw [he]
          exact List.mem_map_of_mem FieldArray.name h
        rw [List.find?_cons_of_neg _ (by simp [hne]), ih hnd.2 a h]

theorem nodupNameInj {arrays : List FieldArray}
    (hnd : (arrays.map FieldArray.name).Nodup) {a b : FieldArray}
    (ha : a ∈ arrays) (hb : b ∈ arrays) (h : a.name = b.name) : a = b := by
  induction arrays with
  | nil => cases ha
  | cons c rest ih =>
      rw [List.map_cons, List.nodup_cons] at hnd
      rcases List.mem_cons.mp ha with h1 | h1 <;>
        rcases List.mem_cons.mp hb with h2 | h2
      · rw [h1, h2]
      · subst h1
        exact absurd (h ▸ List.mem_map_of_mem FieldArray.name h2)
          (by exact hnd.1)
      · subst h2
        exact absurd (h ▸ List.mem_map_of_mem FieldArray.name h1)
          (by exact hnd.1)
      · exact ih hnd.2 h1 h2

theorem collectVariables_eq (arrays : List FieldArray) :
    collectVariables arrays =
      (arrays.filter (fun a => decide (a.ncomp = 1 ∨ a.ncomp = 3))).map
        (fun a => (if a.ncomp = 1 then VarKind.scalar else VarKind.vector,
          a.name)) := by
  induction arrays with
  | nil => rfl
  | cons a rest ih =>
      simp only [collectVariables, List.filterMap_cons] at ih ⊢
      by_cases h1 : a.ncomp = 1
      · simp [h1, ih]
      · by_cases h3 : a.ncomp = 3
        · simp [h1, h3, ih]
        · simp [h1, h3, ih]

theorem writtenVars_eq (arrays : List FieldArray)
    (hnd : (arrays.map FieldArray.name).Nodup) :
    writtenVars arrays = collectVariables arrays := by
  unfold writtenVars
  apply List.filter_eq_self.mpr
  intro v hv
  unfold collectVariables at hv
  obtain ⟨a, ha, hfa⟩ := List.mem_filterMap.mp hv
  unfold writeSucceeds
  by_cases h1 : a.ncomp = 1
  · rw [if_pos h1] at hfa
    have hv2 : v = (VarKind.scalar, a.name) := (Option.some.inj hfa).symm
    subst hv2
    rw [find_name_eq arrays hnd a ha]
  · rw [if_neg h1] at hfa
    by_cases h3 : a.ncomp = 3
    · rw [if_pos h3] at hfa
      have hv2 : v = (VarKind.vector, a.name) := (Option.some.inj hfa).symm
      subst hv2
      rw [find_name_eq arrays hnd a ha]
      simp [h3]
    · rw [if_neg h3] at hfa
      cases hfa

/-- C6: over arrays with distinct names, the variables actually written
(and hence listed in the case manifest, see `convertCaseLines`) are
exactly the fields with component count 1 or 3, in input order and with
their classified kind — so a field whose component count is neither 1 nor
3 is rejected per-field and never appears, while every remaining field is
written normally. -/
theorem c6_reject_per_field :
    ∀ arrays : List FieldArray, (arrays.map FieldArray.name).Nodup →
      writtenVars arrays =
        (arrays.filter (fun a => decide (a.ncomp = 1 ∨ a.ncomp = 3))).map
          (fun a => (if a.ncomp = 1 then VarKind.scalar else VarKind.vector,
            a.name)) ∧
      ∀ a ∈ arrays, a.ncomp ≠ 1 → a.ncomp ≠ 3 → ∀ k : VarKind,
        (k, a.name) ∉ writtenVars arrays := by
  intro arrays hnd
  have he := (writtenVars_eq arrays hnd).trans (collectVariables_eq arrays)
  refine ⟨he, ?_⟩
  intro a ha h1 h3 k hmem
  rw [he] at hmem
  obtain ⟨a2, ha2, heq⟩ := List.mem_map.mp hmem
  have ha2mem : a2 ∈ arrays := List.mem_of_mem_filter ha2
  have ha2p : a2.ncomp = 1 ∨ a2.ncomp = 3 := by
    simpa using List.of_mem_filter ha2
  have hname : a2.name = a.name := congrArg Prod.snd heq
  have : a2 = a := nodupNameInj hnd ha2mem ha hname
  subst this
  rcases ha2p with hp | hp
  · exact h1 hp
  · exact h3 hp

/-- C6 witness: one 2-component field among a scalar and a vector — the
2-component field is absent from the written list, the others remain. -/
theorem c6_witness :
    (([⟨"alpha", 1, [[7]]⟩, ⟨"beta", 2, [[7, 7]]⟩,
       ⟨"gamma", 3, [[7, 7, 7]]⟩] : List FieldArray).map
        FieldArray.name).Nodup ∧
    writtenVars [⟨"alpha", 1, [[7]]⟩, ⟨"beta", 2, [[7, 7]]⟩,
        ⟨"gamma", 3, [[7, 7, 7]]⟩] =
      [(VarKind.scalar, "alpha"), (VarKind.vector, "gamma")] ∧
    (VarKind.scalar, "beta") ∉ writtenVars [⟨"alpha", 1, [[7]]⟩,
      ⟨"beta", 2, [[7, 7]]⟩, ⟨"gamma", 3, [[7, 7, 7]]⟩] ∧
    (VarKind.vector, "beta") ∉ writtenVars [⟨"alpha", 1, [[7]]⟩,
      ⟨"beta", 2, [[7, 7]]⟩, ⟨"gamma", 3, [[7, 7, 7]]⟩] :=
  ⟨by decide, by decide,
   (c6_reject_per_field [⟨"alpha", 1, [[7]]⟩, ⟨"beta", 2, [[7, 7]]⟩,
       ⟨"gamma", 3, [[7, 7, 7]]⟩] (by decide)).2
     ⟨"beta", 2, [[7, 7]]⟩ (by decide) (by decide) (by decide)
     VarKind.scalar,
   (c6_reject_per_field [⟨"alpha", 1, [[7]]⟩, ⟨"beta", 2, [[7, 7]]⟩,
       ⟨"gamma", 3, [[7, 7, 7]]⟩] (by decide)).2
     ⟨"beta", 2, [[7, 7]]⟩ (by decide) (by decide) (by decide)
     VarKind.vector⟩

/-- C10: every writer output hard-codes exactly one part with part index
1, regardless of the input: the binary geometry file opens with the four
header lines, the single `part` record with big-endian int32 index 1 and
the part name `Volume`; the binary scalar and vector field files open
with `C Binary`, the single `part` record with index 1 and
`coordinates`; the ASCII variants carry the single `part` line followed
by the 10-wide right-aligned index 1 (and `Volume` in the geometry); and
no element-section keyword line ever equals `part`, so no further part
record appears. -/
theorem c10_single_part_index_one :
    (∀ g : Grid, (write_ensight_gold_geometry_binary g).take 484 =
      ljust80 (ascii "C Binary") ++
      ljust80 (ascii "Generated from VTU - Binary") ++
      ljust80 (ascii "node id assign") ++
      ljust80 (ascii "element id assign") ++
      ljust80 (ascii "part") ++ packInt32be 1 ++
      ljust80 (ascii "Volume")) ∧
    (∀ t : CellType, ensightName t ≠ "part") ∧
    (∀ f : FieldArray, (write_ensight_gold_scalar_binary f).take 244 =
      ljust80 (ascii "C Binary") ++ ljust80 (ascii "part") ++
      packInt32be 1 ++ ljust80 (ascii "coordinates")) ∧
    (∀ f : FieldArray, f.ncomp = 3 →
      ∃ out, write_ensight_gold_vector_binary f = some out ∧
        out.take 244 = ljust80 (ascii "C Binary") ++
          ljust80 (ascii "part") ++ packInt32be 1 ++
          ljust80 (ascii "coordinates")) ∧
    (∀ (fmt : Nat → String) (g : Grid),
      ∃ rest, write_ensight_gold_geometry fmt g =
        "EnSight Gold Geometry File\nGenerated from VTU by vtu_to_ensight_gold.py\nnode id assign\nelement id assign\npart\n         1\nVolume\n"
          ++ rest) ∧
    (∀ (fmt : Nat → String) (f : FieldArray),
      ∃ rest, write_ensight_gold_scalar fmt f =
        "EnSight Gold Scalar Variable\npart\n         1\ncoordinates\n" ++
          rest) ∧
    (∀ (fmt : Nat → String) (f : FieldArray), f.ncomp = 3 →
      ∃ out rest, write_ensight_gold_vector fmt f = some out ∧
        out = "EnSight Gold Vector Variable\npart\n         1\ncoordinates\n"
          ++ rest) := by
  refine ⟨fun g => rfl, ?_, fun f => rfl, ?_, ?_, ?_, ?_⟩
  · intro t
    cases t <;> decide
  · intro f h3
    unfold write_ensight_gold_vector_binary
    rw [if_neg (by simp [h3])]
    exact ⟨_, rfl, rfl⟩
  · intro fmt g
    exact ⟨_, rfl⟩
  · intro fmt f
    exact ⟨_, rfl⟩
  · intro fmt f h3
    unfold write_ensight_gold_vector
    rw [if_neg (by simp [h3])]
    exact ⟨_, _, rfl, rfl⟩

/-- C10 witness: the two vector-writer parts at a concrete 3-component
field. -/
theorem c10_witness :
    (⟨"velocity", 3, [[1, 2, 3]]⟩ : FieldArray).ncomp = 3 ∧
    (∃ out, write_ensight_gold_vector_binary
        ⟨"velocity", 3, [[1, 2, 3]]⟩ = some out ∧
      out.take 244 = ljust80 (ascii "C Binary") ++
        ljust80 (ascii "part") ++ packInt32be 1 ++
        ljust80 (ascii "coordinates")) ∧
    (∃ out rest, write_ensight_gold_vector (fun _ => "0.0")
        ⟨"velocity", 3, [[1, 2, 3]]⟩ = some out ∧
      out = "EnSight Gold Vector Variable\npart\n         1\ncoordinates\n"
        ++ rest) :=
  ⟨rfl,
   c10_single_part_index_one.2.2.2.1 ⟨"velocity", 3, [[1, 2, 3]]⟩ rfl,
   c10_single_part_index_one.2.2.2.2.2.2 (fun _ => "0.0")
     ⟨"velocity", 3, [[1, 2, 3]]⟩ rfl⟩

end EnsightClip
